import Mathlib

/-!
# roboat: the rofi input handler over the newsboat cache

A shallow embedding of `inputhandler/inputhandler.go`, `newsboatdb/newsboatdb.go`
and `main.go`.

* A Go `string` is a sequence of bytes; it is embedded as a list of byte values.
* A Go `error` is embedded as the text of its `Error()`.
* `int`, `int64` are embedded as `Int` (64-bit platform, so `int(id)` is the identity
  on an `int64`).
* The handlers mutate `in.api` and talk to the store and to the operating system;
  they are embedded as functions on a machine state that carries the api object,
  the store state, the sequence of store / OS calls made so far and the log.
* A run-time panic (index out of range) is the result `none`.
-/

namespace Roboat

/-! ## Strings -/

/-- A Go string: its bytes, in order. -/
abbrev GoString := List Nat

/-- UTF-8 bytes of one code point, as the Go compiler stores a source literal. -/
def utf8EncodeChar (c : Char) : List Nat :=
  let v := c.toNat
  if v < 0x80 then [v]
  else if v < 0x800 then [0xC0 + v / 64, 0x80 + v % 64]
  else if v < 0x10000 then [0xE0 + v / 4096, 0x80 + v / 64 % 64, 0x80 + v % 64]
  else [0xF0 + v / 262144, 0x80 + v / 4096 % 64, 0x80 + v / 64 % 64, 0x80 + v % 64]

/-- The bytes of a string literal of the source. -/
def lit (s : String) : GoString := s.toList.flatMap utf8EncodeChar

/-- Go `error`: represented by its message. -/
abbrev GoError := GoString

/-! ## Library functions used by the handlers (`strings`, `strconv`, `fmt`) -/

/-- Loop of `strings.ReplaceAll s old new` for a non-empty `old`: scan left to right,
substitute each non-overlapping occurrence. `skip` counts the bytes of a matched
occurrence that are still to be stepped over. -/
def replaceAux (old new : GoString) : Nat → GoString → GoString
  | _, [] => []
  | skip + 1, _ :: cs => replaceAux old new skip cs
  | 0, c :: cs =>
    if old.isPrefixOf (c :: cs) then new ++ replaceAux old new (old.length - 1) cs
    else c :: replaceAux old new 0 cs

/-- Go `strings.ReplaceAll(s, old, new)`, for the non-empty `old` the source uses. -/
def ReplaceAll (s old new : GoString) : GoString := replaceAux old new 0 s

/-- Position split of `strings.Index(s, sep)` for a one-byte `sep`: the bytes before the
first `sep` and the bytes after it, or `none` when `sep` does not occur. -/
def cut (sep : Nat) : GoString → Option (GoString × GoString)
  | [] => none
  | c :: cs =>
    if c = sep then some ([], cs)
    else match cut sep cs with
      | some (a, b) => some (c :: a, b)
      | none => none

/-- Go `strings.SplitN(s, " ", 2)`: at most two pieces, split at the first space; a
string without a space (the empty string included) gives the one-element slice `[s]`. -/
def SplitN2 (s : GoString) : List GoString :=
  match cut 32 s with
  | some (a, b) => [a, b]
  | none => [s]

/-- Outcome of the digit loop of `strconv.ParseUint`. -/
inductive UintResult where
  | ok (n : Nat)
  | invalid
  | outOfRange
  deriving DecidableEq

/-- Value of `maxUint64`. -/
def maxUint64 : Nat := 2 ^ 64 - 1

/-- Digit loop of `strconv.ParseUint(s, 10, 64)`: a byte that is not a decimal digit is a
syntax error (letters decode to a digit value `>= 10`, which base 10 rejects); the
accumulator leaving 64 bits is a range error. Both return at once. -/
def parseUintLoop : GoString → Nat → UintResult
  | [], n => .ok n
  | c :: cs, n =>
    if 48 ≤ c ∧ c ≤ 57 then
      let d := c - 48
      if n ≥ maxUint64 / 10 + 1 then .outOfRange
      else
        let n1 := n * 10 + d
        if n1 > maxUint64 then .outOfRange
        else parseUintLoop cs n1
    else .invalid

/-- Go `strconv.ParseUint(s, 10, 64)`. -/
def ParseUint (s : GoString) : UintResult :=
  if s = [] then .invalid else parseUintLoop s 0

/-- Tail of `strconv.ParseInt` after the unsigned parse gave `un`: the range checks
against `cutoff = 1 << 63`, then the sign. -/
def signedOf (neg : Bool) (un : Nat) : Int × Bool :=
  let cutoff : Nat := 2 ^ 63
  if neg = false ∧ un ≥ cutoff then ((cutoff : Int) - 1, true)
  else if neg = true ∧ un > cutoff then (-(cutoff : Int), true)
  else (if neg then -(un : Int) else (un : Int), false)

/-- Go `strconv.ParseInt(s, 10, 64)`: the value and whether an error is returned.
A syntax error returns 0; a range error returns the nearest bound. -/
def ParseInt (s : GoString) : Int × Bool :=
  match s with
  | [] => (0, true)
  | c :: cs =>
    let neg : Bool := c = 45
    let s1 := if c = 43 ∨ c = 45 then cs else c :: cs
    match ParseUint s1 with
    | .invalid => (0, true)
    | .outOfRange => signedOf neg maxUint64
    | .ok un => signedOf neg un

/-- Decimal digits of `n`, most significant first; `fuel` bounds the number of digits. -/
def natDigits : Nat → Nat → GoString
  | 0, n => [48 + n % 10]
  | fuel + 1, n =>
    if n < 10 then [48 + n] else natDigits fuel (n / 10) ++ [48 + n % 10]

/-- Output of the verb `%d` for a non-negative integer. -/
def formatNat (n : Nat) : GoString := natDigits n n

/-- Output of the verb `%d`: decimal, with a leading `-` for a negative integer. -/
def formatInt (i : Int) : GoString :=
  if i < 0 then 45 :: formatNat i.natAbs else formatNat i.natAbs

/-- Output of the verb `%12s` for an ASCII operand: left-padded with spaces to 12
columns, an operand of 12 columns or more is written as it is. -/
def pad12 (s : GoString) : GoString := List.replicate (12 - s.length) 32 ++ s

/-! ## `inputhandler`: constants and the presentation helpers -/

/-- Constant `entryMaxLen`. -/
def entryMaxLen : Int := 100

/-- Constant `opExit`. -/
def opExit : GoString := lit "<-- Exit"

/-- Constant `opBack`. -/
def opBack : GoString := lit "<-- Back"

/-- Constant `roboatBrowserEnvVar`. -/
def roboatBrowserEnvVar : GoString := lit "ROBOAT_BROWSER"

/-- Source `truncateEnd`: `s[:l]` when `len(s) > l && l >= 0`, else `s`. -/
def truncateEnd (s : GoString) (l : Int) : GoString :=
  if (s.length : Int) > l ∧ l ≥ 0 then s.take l.toNat else s

/-- Source `replaceNewlines`. -/
def replaceNewlines (s : GoString) : GoString := ReplaceAll s (lit "\n") (lit " ")

/-- Source `formatEntryText`. -/
def formatEntryText (e : GoString) : GoString :=
  replaceNewlines (truncateEnd e entryMaxLen)

/-! ## `newsboatdb`: records and the store interface -/

/-- Source `newsboatdb.RSSFeed`. -/
structure RSSFeed where
  Title : GoString
  RssURL : GoString
  UnreadItems : Int
  TotalItems : Int
  deriving DecidableEq

/-- Source `newsboatdb.RSSItem`; `PubDate` is the `time.Time` built by
`time.Unix(unixDate, 0)`, kept as its number of seconds. -/
structure RSSItem where
  ID : Int
  Title : GoString
  FeedURL : GoString
  URL : GoString
  PubDate : Int
  Unread : Bool
  deriving DecidableEq

/-- Source `newsboatdb.DBInterface`, over a store state `σ`. A query reads the state;
a mutation returns the state it leaves and the `error` it returns (`none` is `nil`). -/
structure DBInterface (σ : Type) where
  Close : σ → σ × Option GoError
  GetFeeds : σ → Except GoError (List RSSFeed)
  GetItems : σ → GoString → Except GoError (List RSSItem)
  ToggleUnread : σ → Int → σ × Option GoError
  SetUnread : σ → Int → Bool → σ × Option GoError

/-! ## `newsboatdb`: the SQLite cache -/

/-- A row of table `rss_feed` (the columns the queries read). -/
structure FeedRow where
  rssurl : GoString
  title : GoString
  deriving DecidableEq

/-- A row of table `rss_item` (the columns the queries read or write); `unread` holds
0 or 1 and is kept as a boolean. -/
structure ItemRow where
  id : Int
  title : GoString
  url : GoString
  feedurl : GoString
  pubDate : Int
  unread : Bool
  deriving DecidableEq

/-- The cache behind `NewsBoatDB.conn`: the two tables in storage order, and the error
with which the connection currently answers every statement (`none`: it works). -/
structure NewsBoatDB where
  rss_feed : List FeedRow
  rss_item : List ItemRow
  connErr : Option GoError
  deriving DecidableEq

namespace NewsBoatDB

/-- Source `getItemCount`: `(unreadItems, totalItems)` of the rows `WHERE feedurl = ?`. -/
def getItemCount (db : NewsBoatDB) (feedURL : GoString) : Except GoError (Int × Int) :=
  match db.connErr with
  | some e => .error (lit "failed to scan row: " ++ e)
  | none =>
    let rows := db.rss_item.filter (fun r => r.feedurl = feedURL)
    let totalItems : Int := rows.length
    let unreadItems : Int := (rows.filter (fun r => r.unread)).length
    .ok (unreadItems, totalItems)

/-- Row loop of source `GetFeeds`: scan each row, attach its counts, append. -/
def scanFeeds (db : NewsBoatDB) : List FeedRow → List RSSFeed → Except GoError (List RSSFeed)
  | [], feeds => .ok feeds
  | row :: rows, feeds =>
    match getItemCount db row.rssurl with
    | .error e => .error e
    | .ok (unreadItems, totalItems) =>
      scanFeeds db rows
        (feeds ++ [{ Title := row.title, RssURL := row.rssurl,
                     UnreadItems := unreadItems, TotalItems := totalItems }])

/-- Source `GetFeeds`: `SELECT rssurl, title FROM rss_feed`, with the counts of each. -/
def GetFeeds (db : NewsBoatDB) : Except GoError (List RSSFeed) :=
  match db.connErr with
  | some e => .error (lit "failed to execute query: " ++ e)
  | none => scanFeeds db db.rss_feed []

/-- Source `GetItems`: `SELECT id, title, url, pubDate, unread FROM rss_item WHERE
feedurl = ? ORDER BY pubDate DESC`. Rows of equal `pubDate` keep their storage order.
The column `feedurl` is not selected, so `FeedURL` stays empty. -/
def GetItems (db : NewsBoatDB) (feedUrl : GoString) : Except GoError (List RSSItem) :=
  match db.connErr with
  | some e => .error (lit "failed to query RSS items: " ++ e)
  | none =>
    let rows := (db.rss_item.filter (fun r => r.feedurl = feedUrl)).insertionSort
      (fun a b => a.pubDate ≥ b.pubDate)
    .ok (rows.map (fun r =>
      { ID := r.id, Title := r.title, FeedURL := [], URL := r.url,
        PubDate := r.pubDate, Unread := r.unread }))

/-- Statement `UPDATE rss_item SET unread = ? WHERE id = ?`. -/
def updateUnread (items : List ItemRow) (id : Int) (newUnread : Bool) : List ItemRow :=
  items.map (fun r => if r.id = id then { r with unread := newUnread } else r)

/-- Source `withTransaction`: a failing `Begin` or a failing body leaves the tables as
they were; otherwise the tables of the body are committed. -/
def withTransaction (db : NewsBoatDB)
    (fn : List ItemRow → Except GoError (List ItemRow)) : NewsBoatDB × Option GoError :=
  match db.connErr with
  | some e => (db, some (lit "failed to begin transaction: " ++ e))
  | none =>
    match fn db.rss_item with
    | .error e => (db, some e)
    | .ok items => ({ db with rss_item := items }, none)

/-- Source `ToggleUnread`: read the flag of the row with this id (no such row is the
error `sql.ErrNoRows`), write its negation. -/
def ToggleUnread (db : NewsBoatDB) (id : Int) : NewsBoatDB × Option GoError :=
  withTransaction db (fun items =>
    match items.find? (fun r => r.id = id) with
    | none =>
      .error (lit "failed to retrieve unread value: sql: no rows in result set")
    | some r =>
      let newUnread := if r.unread then false else true
      .ok (updateUnread items id newUnread))

/-- Source `SetUnread`. -/
def SetUnread (db : NewsBoatDB) (id : Int) (unread : Bool) : NewsBoatDB × Option GoError :=
  let newUnread := if unread then true else false
  withTransaction db (fun items => .ok (updateUnread items id newUnread))

/-- Source `Close`. -/
def Close (db : NewsBoatDB) : NewsBoatDB × Option GoError :=
  ({ db with connErr := some (lit "sql: database is closed") }, db.connErr)

end NewsBoatDB

/-- The type `*NewsBoatDB` as an implementation of `DBInterface`. -/
def newsBoatDB : DBInterface NewsBoatDB where
  Close := NewsBoatDB.Close
  GetFeeds := NewsBoatDB.GetFeeds
  GetItems := NewsBoatDB.GetItems
  ToggleUnread := NewsBoatDB.ToggleUnread
  SetUnread := NewsBoatDB.SetUnread

/-! ## The picker-UI harness (`rofiapi`) as the handlers use it -/

/-- Type `rofiapi.State`, the kind of trigger of this invocation. The handlers tell two
values apart: a plain selection and the first custom key binding. -/
inductive RofiState where
  | StateSelected
  | StateCustomKeybinding1
  | StateOther (code : Nat)
  deriving DecidableEq

/-- Type `rofiapi.Option`: the keys of `api.Options` the handlers write. -/
inductive RofiOption where
  | OptionMessage
  | OptionNoCustom
  | OptionUseHotKeys
  | OptionKeepSelection
  deriving DecidableEq

/-- Type `rofiapi.Entry`: display text and payload (its other fields are never set). -/
structure Entry where
  Text : GoString
  Info : GoString
  deriving DecidableEq

/-- Source `State`. -/
inductive State where
  | StateNull
  | StateErrorShow
  | StateErrorSelect
  | StateRSSFeedsShow
  | StateRSSFeedsSelect
  | StateRSSItemsShow
  | StateRSSItemsSelect
  deriving DecidableEq

/-- Numeric value of a `State` (`iota`), as `%v` prints it. -/
def State.toNat : State → Nat
  | .StateNull => 0
  | .StateErrorShow => 1
  | .StateErrorSelect => 2
  | .StateRSSFeedsShow => 3
  | .StateRSSFeedsSelect => 4
  | .StateRSSItemsShow => 5
  | .StateRSSItemsSelect => 6

/-- Source `Data`. -/
structure Data where
  State : State
  FeedURL : GoString
  ItemURL : GoString
  ItemID : Int
  deriving DecidableEq

/-- Type `rofiapi.RofiApi[Data]`: the map `Options`, the slice `Entries`, the carried
`Data`, and what the harness hands in for this invocation: the result of `GetState()`
and the two results of `GetSelectedEntry()`. -/
structure RofiApi where
  Options : RofiOption → Option GoString
  Entries : List Entry
  Data : Data
  rofiState : RofiState
  selectedEntry : Entry
  selectedOk : Bool

/-- Map assignment `api.Options[k] = v`. -/
def RofiApi.setOption (api : RofiApi) (k : RofiOption) (v : GoString) : RofiApi :=
  { api with Options := fun k1 => if k1 = k then some v else api.Options k1 }

/-! ## The operating system as the handlers use it -/

/-- Results of the operating-system calls of one invocation. -/
structure OS (σ : Type) where
  -- result of `os.CreateTemp(os.TempDir(), "config*.conf")`: the name of the file
  CreateTemp : Except GoError GoString
  -- error of `tmpFile.WriteString(config)`
  WriteString : Option GoError
  -- error of `tmpFile.Close()`
  CloseFile : Option GoError
  -- running `newsboat -C <file> -x reload`: the cache it leaves and its error
  RunReload : GoString → σ → σ × Option GoError
  -- error of `cmd.Start()` for `exec.Command(b, url)`
  Start : GoString → GoString → Option GoError

/-- A call that leaves the process. -/
inductive Call where
  | GetFeeds
  | GetItems (feedUrl : GoString)
  | ToggleUnread (id : Int)
  | SetUnread (id : Int) (unread : Bool)
  | CreateTemp
  | WriteString (name : GoString)
  | CloseFile (name : GoString)
  | Remove (name : GoString)
  | RunReload (name : GoString)
  | Start (b : GoString) (url : GoString)
  deriving DecidableEq

/-! ## `inputhandler`: the handlers -/

/-- Source `InputHandler`, without the mutable `api`: the store implementation, the
browser read from `$ROBOAT_BROWSER`, and the collaborators outside the repository
(operating system, `rofiapi.EscapePangoMarkup`, `time.Time.Format("Jan 02")` in the
local zone). -/
structure InputHandler (σ : Type) where
  db : DBInterface σ
  browser : GoString
  os : OS σ
  EscapePangoMarkup : GoString → GoString
  FormatJan02 : Int → GoString

/-- What an invocation reads and writes: the api object, the store, the calls made so
far (oldest first) and the lines written with package `log`. -/
structure Machine (σ : Type) where
  api : RofiApi
  store : σ
  calls : List Call
  log : List GoString

/-- Record a call. -/
def Machine.call {σ : Type} (m : Machine σ) (c : Call) : Machine σ :=
  { m with calls := m.calls ++ [c] }

/-- Statement `log.Printf` / `log.Println`. -/
def Machine.logLine {σ : Type} (m : Machine σ) (l : GoString) : Machine σ :=
  { m with log := m.log ++ [l] }

/-- Source `formatMessage`. -/
def formatMessage (esc : GoString → GoString) (text : GoString) : GoString :=
  lit "<markup><span font_weight=\"bold\">" ++ esc text ++ lit "</span></markup>"

/-- Source `SetMessageToError`. -/
def SetMessageToError {σ : Type} (esc : GoString → GoString) (m : Machine σ)
    (err : GoError) : Machine σ :=
  let m := m.logLine (lit "ERROR  " ++ err)
  let api := m.api.setOption .OptionMessage
    (lit "<markup><span font_weight=\"bold\">error:</span><span> " ++ esc err
      ++ lit "</span></markup>")
  let api := api.setOption .OptionNoCustom (lit "true")
  let api := { api with Entries := [{ Text := opExit, Info := [] }] }
  let api := { api with Data := { api.Data with State := .StateErrorShow } }
  { m with api := api }

/-- Inner `fmt.Sprintf("(%d/%d)", rf.UnreadItems, rf.TotalItems)`. -/
def counterText (unreadItems totalItems : Int) : GoString :=
  lit "(" ++ formatInt unreadItems ++ lit "/" ++ formatInt totalItems ++ lit ")"

/-- Text of a feed row before `formatEntryText` (body of the loop of
`HandleRSSFeedsShow`). -/
def feedText (rf : RSSFeed) : GoString :=
  let text := if rf.TotalItems > 0 ∧ rf.UnreadItems > 0 then lit "N" else lit " "
  let text := text ++ (pad12 (counterText rf.UnreadItems rf.TotalItems) ++ lit " ")
  text ++ rf.Title

/-- Entry of a feed row (body of the loop of `HandleRSSFeedsShow`). -/
def feedEntry (rf : RSSFeed) : Entry :=
  { Text := formatEntryText (feedText rf), Info := rf.RssURL }

/-- Loop `for _, rf := range rssFeeds` of `HandleRSSFeedsShow`. -/
def feedEntries (rssFeeds : List RSSFeed) (entries : List Entry) : List Entry :=
  rssFeeds.foldl (fun acc rf => acc ++ [feedEntry rf]) entries

/-- Source `HandleRSSFeedsShow`. -/
def HandleRSSFeedsShow {σ : Type} (h : InputHandler σ) (m : Machine σ) : Machine σ :=
  let api := m.api.setOption .OptionMessage
    (formatMessage h.EscapePangoMarkup (lit "Reload all: Alt+1"))
  let api := api.setOption .OptionNoCustom (lit "true")
  let api := api.setOption .OptionUseHotKeys (lit "true")
  let api := api.setOption .OptionKeepSelection (lit "false")
  let m := { m with api := api }
  let m := m.call .GetFeeds
  match h.db.GetFeeds m.store with
  | .error err => SetMessageToError h.EscapePangoMarkup m err
  | .ok rssFeeds =>
    let entries := feedEntries rssFeeds []
    { m with api := { m.api with
        Entries := entries
        Data := { m.api.Data with State := .StateRSSFeedsSelect } } }

/-- Text of an item row before `formatEntryText` (body of the loop of
`handleRSSItemsShow`). -/
def itemText (fmt : Int → GoString) (ri : RSSItem) : GoString :=
  let text := if ri.Unread then lit "N " else lit "  "
  let text := text ++ (fmt ri.PubDate ++ lit " ")
  text ++ ri.Title

/-- Payload of an item row: `fmt.Sprintf("%d %s", ri.ID, ri.URL)`. -/
def itemInfo (id : Int) (url : GoString) : GoString :=
  formatInt id ++ lit " " ++ url

/-- Entry of an item row (body of the loop of `handleRSSItemsShow`). -/
def itemEntry (fmt : Int → GoString) (ri : RSSItem) : Entry :=
  { Text := formatEntryText (itemText fmt ri), Info := itemInfo ri.ID ri.URL }

/-- Loop `for _, ri := range rssItems` of `handleRSSItemsShow`. -/
def itemEntries (fmt : Int → GoString) (rssItems : List RSSItem) (entries : List Entry) :
    List Entry :=
  rssItems.foldl (fun acc ri => acc ++ [itemEntry fmt ri]) entries

/-- Source `handleRSSItemsShow`. -/
def handleRSSItemsShow {σ : Type} (h : InputHandler σ) (m : Machine σ) : Machine σ :=
  let api := m.api.setOption .OptionMessage
    (formatMessage h.EscapePangoMarkup (lit "Toggle read: Alt+1"))
  let api := api.setOption .OptionNoCustom (lit "true")
  let api := api.setOption .OptionUseHotKeys (lit "true")
  let m := { m with api := api }
  let m := m.call (.GetItems m.api.Data.FeedURL)
  match h.db.GetItems m.store m.api.Data.FeedURL with
  | .error err => SetMessageToError h.EscapePangoMarkup m err
  | .ok rssItems =>
    let entries := itemEntries h.FormatJan02 rssItems [{ Text := opBack, Info := [] }]
    { m with api := { m.api with
        Entries := entries
        Data := { m.api.Data with State := .StateRSSItemsSelect } } }

/-- Source `handleReloadAll`; the deferred `os.Remove` runs last on every path after
the file was created. -/
def handleReloadAll {σ : Type} (h : InputHandler σ) (m : Machine σ) : Machine σ :=
  let m := m.call .CreateTemp
  match h.os.CreateTemp with
  | .error err => m.logLine (lit "Error creating temporary file: " ++ err)
  | .ok name =>
    let m := m.call (.WriteString name)
    match h.os.WriteString with
    | some err =>
      (m.logLine (lit "Error writing to temporary file: " ++ err)).call (.Remove name)
    | none =>
      let m := m.call (.CloseFile name)
      match h.os.CloseFile with
      | some err =>
        (m.logLine (lit "Error closing temporary file: " ++ err)).call (.Remove name)
      | none =>
        let m := m.call (.RunReload name)
        let r := h.os.RunReload name m.store
        let m := { m with store := r.1 }
        match r.2 with
        | some err =>
          (SetMessageToError h.EscapePangoMarkup m
            (lit "error reloading newsboat feeds: " ++ err)).call (.Remove name)
        | none => (HandleRSSFeedsShow h m).call (.Remove name)

/-- Source `handleRSSFeedsSelect`. -/
def handleRSSFeedsSelect {σ : Type} (h : InputHandler σ) (m : Machine σ) : Machine σ :=
  let rofiState := m.api.rofiState
  let selected := m.api.selectedEntry
  let m := { m with api := { m.api with
    Data := { m.api.Data with FeedURL := selected.Info } } }
  match rofiState with
  | .StateCustomKeybinding1 => handleReloadAll h m
  | .StateSelected => handleRSSItemsShow h m
  | _ => HandleRSSFeedsShow h m

/-- Source `handleGotoURL`. -/
def handleGotoURL {σ : Type} (h : InputHandler σ) (m : Machine σ) : Machine σ :=
  let b := if h.browser = [] then lit "xdg-open" else h.browser
  let m := m.call (.Start b m.api.Data.ItemURL)
  match h.os.Start b m.api.Data.ItemURL with
  | some err =>
    let e := if b = lit "xdg-open" then
        lit "error opening URL: xdg-utils is not installed, to use without set env variable $"
          ++ roboatBrowserEnvVar
      else lit "error opening URL: " ++ err
    SetMessageToError h.EscapePangoMarkup m e
  | none =>
    let m := m.call (.SetUnread m.api.Data.ItemID false)
    { m with store := (h.db.SetUnread m.store m.api.Data.ItemID false).1 }

/-- Source `handleRSSItemsSelect`; `none` is the panic of `infoSplit[1]` on a slice of
length one. -/
def handleRSSItemsSelect {σ : Type} (h : InputHandler σ) (m : Machine σ) :
    Option (Machine σ) :=
  let rofiState := m.api.rofiState
  let selectedEntry := m.api.selectedEntry
  if selectedEntry.Text = opBack then some (HandleRSSFeedsShow h m)
  else
    let infoSplit := SplitN2 selectedEntry.Info
    match infoSplit[0]?, infoSplit[1]? with
    | some s0, some url =>
      let id := (ParseInt s0).1
      let m := { m with api := { m.api with
        Data := { m.api.Data with ItemURL := url, ItemID := id } } }
      match rofiState with
      | .StateCustomKeybinding1 =>
        let m := { m with api := m.api.setOption .OptionKeepSelection (lit "true") }
        let m := m.call (.ToggleUnread m.api.Data.ItemID)
        let m := { m with store := (h.db.ToggleUnread m.store m.api.Data.ItemID).1 }
        some (handleRSSItemsShow h m)
      | .StateSelected => some (handleGotoURL h m)
      | _ => some (handleRSSItemsShow h m)
    | _, _ => none

/-- Line of `log.Printf("Unhandled state: %v", in.api.Data)`. -/
def unhandledLine (d : Data) : GoString :=
  lit "Unhandled state: \x7b" ++ formatNat d.State.toNat ++ lit " " ++ d.FeedURL
    ++ lit " " ++ d.ItemURL ++ lit " " ++ formatInt d.ItemID ++ lit "\x7d"

/-- Source `HandleInput`. -/
def HandleInput {σ : Type} (h : InputHandler σ) (m : Machine σ) : Option (Machine σ) :=
  match m.api.Data.State with
  | .StateRSSFeedsShow => some (HandleRSSFeedsShow h m)
  | .StateRSSFeedsSelect => some (handleRSSFeedsSelect h m)
  | .StateRSSItemsShow => some (handleRSSItemsShow h m)
  | .StateRSSItemsSelect => handleRSSItemsSelect h m
  | _ => some (m.logLine (unhandledLine m.api.Data))

/-- Source `handleApiInput` of `main.go`. -/
def handleApiInput {σ : Type} (h : InputHandler σ) (m : Machine σ) : Option (Machine σ) :=
  if m.api.selectedOk then HandleInput h m else some (HandleRSSFeedsShow h m)

/-! ## A concrete installation, used to run the handlers -/

/-- Short English month names, as `time` prints them for `Jan`. -/
def monthNames : List GoString :=
  [lit "Jan", lit "Feb", lit "Mar", lit "Apr", lit "May", lit "Jun",
   lit "Jul", lit "Aug", lit "Sep", lit "Oct", lit "Nov", lit "Dec"]

/-- Result of `time.Unix(sec, 0).Format("Jan 02")` in a zone without offset (UTC): the
proleptic Gregorian month and day of the day that contains `sec`. -/
def formatJan02UTC (sec : Int) : GoString :=
  let z := sec / 86400 + 719468
  let era := z / 146097
  let doe := z - era * 146097
  let yoe := (doe - doe / 1460 + doe / 36524 - doe / 146096) / 365
  let doy := doe - (365 * yoe + yoe / 4 - yoe / 100)
  let mp := (5 * doy + 2) / 153
  let d := doy - (153 * mp + 2) / 5 + 1
  let mo := if mp < 10 then mp + 3 else mp - 9
  monthNames.getD (mo.toNat - 1) [] ++ lit " "
    ++ (if d < 10 then lit "0" else []) ++ formatInt d

/-- Escaping of the five markup characters, one way to realise
`rofiapi.EscapePangoMarkup`. -/
def escapeMarkup (s : GoString) : GoString :=
  s.flatMap (fun c =>
    if c = 38 then lit "&amp;"
    else if c = 60 then lit "&lt;"
    else if c = 62 then lit "&gt;"
    else if c = 39 then lit "&#39;"
    else if c = 34 then lit "&#34;"
    else [c])

/-- An operating system on which every call succeeds and a reload leaves the cache as
it is. -/
def demoOS : OS NewsBoatDB where
  CreateTemp := .ok (lit "/tmp/config1.conf")
  WriteString := none
  CloseFile := none
  RunReload := fun _ db => (db, none)
  Start := fun _ _ => none

/-- An operating system on which no opener can be started. -/
def demoOSNoOpener : OS NewsBoatDB :=
  { demoOS with Start := fun _ _ => some (lit "exec: not found") }

/-- The handler of `main`: the SQLite store, `$ROBOAT_BROWSER` unset. -/
def demoHandler : InputHandler NewsBoatDB where
  db := newsBoatDB
  browser := []
  os := demoOS
  EscapePangoMarkup := escapeMarkup
  FormatJan02 := formatJan02UTC

/-- A cache with the feed `https://a/rss` holding three items, two of them unread. -/
def demoStore : NewsBoatDB where
  rss_feed := [{ rssurl := lit "https://a/rss", title := lit "Feed A" }]
  rss_item :=
    [{ id := 41, title := lit "Older", url := lit "https://example/older",
       feedurl := lit "https://a/rss", pubDate := 1700000000, unread := false },
     { id := 42, title := lit "Item", url := lit "https://example/item",
       feedurl := lit "https://a/rss", pubDate := 1700086400, unread := true },
     { id := 43, title := lit "Newest", url := lit "https://example/a b",
       feedurl := lit "https://a/rss", pubDate := 1700172800, unread := true }]
  connErr := none

/-- An empty cache. -/
def emptyStore : NewsBoatDB where
  rss_feed := []
  rss_item := []
  connErr := none

/-- The api object at the start of an invocation: no option set, the given entries,
carried data, trigger and selected entry. -/
def demoApi (entries : List Entry) (d : Data) (r : RofiState) (sel : Entry) (ok : Bool) :
    RofiApi where
  Options := fun _ => none
  Entries := entries
  Data := d
  rofiState := r
  selectedEntry := sel
  selectedOk := ok

/-- A machine at the start of an invocation: nothing called, nothing logged. -/
def demoMachine (store : NewsBoatDB) (api : RofiApi) : Machine NewsBoatDB where
  api := api
  store := store
  calls := []
  log := []

/-- The item screen of feed `https://a/rss` as rendered from `demoStore`. -/
def demoItemScreen : List Entry :=
  (handleRSSItemsShow demoHandler (demoMachine demoStore
    (demoApi [] { State := .StateRSSItemsShow, FeedURL := lit "https://a/rss",
                  ItemURL := [], ItemID := 0 } (.StateOther 0)
      { Text := [], Info := [] } false))).api.Entries

/-- The items of feed `https://a/rss` as `demoStore` returns them, newest first. -/
def demoItems : List RSSItem :=
  [{ ID := 43, Title := lit "Newest", FeedURL := [], URL := lit "https://example/a b",
     PubDate := 1700172800, Unread := true },
   { ID := 42, Title := lit "Item", FeedURL := [], URL := lit "https://example/item",
     PubDate := 1700086400, Unread := true },
   { ID := 41, Title := lit "Older", FeedURL := [], URL := lit "https://example/older",
     PubDate := 1700000000, Unread := false }]

/-- The carried data of a session that shows the items of feed `https://a/rss`. -/
def demoItemsData : Data :=
  { State := .StateRSSItemsSelect, FeedURL := lit "https://a/rss", ItemURL := [], ItemID := 0 }

/-- Row of item 42 on the item screen of `demoStore`. -/
def item42Row : Entry :=
  { Text := lit "N Nov 15 Item", Info := lit "42 https://example/item" }

/-- The synthetic first row of an item screen. -/
def backRow : Entry := { Text := opBack, Info := [] }

/-- Row of feed `https://a/rss` on the feed screen of `demoStore`. -/
def feedARow : Entry :=
  { Text := lit "N       (2/3) Feed A", Info := lit "https://a/rss" }

/-- An invocation in Items-Select over `demoStore`, showing feed `https://a/rss`, with
the given trigger and selected entry; the api object starts without entries. -/
def demoSelect (r : RofiState) (sel : Entry) : Machine NewsBoatDB :=
  demoMachine demoStore (demoApi [] demoItemsData r sel true)

/-- An invocation in Feeds-Select over `demoStore` with the given trigger, the row of
feed `https://a/rss` selected. -/
def demoFeedsSelect (r : RofiState) : Machine NewsBoatDB :=
  demoMachine demoStore (demoApi []
    { State := .StateRSSFeedsSelect, FeedURL := [], ItemURL := [], ItemID := 0 }
    r feedARow true)

/-- The row of an item that is no longer in `demoStore`. -/
def goneRow : Entry :=
  { Text := lit "N Nov 13 Gone", Info := lit "99 https://example/gone" }

/-- The handler of `main` on a system where no temporary file can be created. -/
def demoHandlerNoTemp : InputHandler NewsBoatDB :=
  { demoHandler with
    os := { demoOS with CreateTemp := .error (lit "no space left on device") } }

/-- The cache `demoStore` behind a connection that refuses every statement. -/
def lockedStore : NewsBoatDB :=
  { demoStore with connErr := some (lit "database is locked") }

/-! ## Intermediate machines of `handleRSSItemsSelect` -/

/-- The machine after `handleRSSItemsSelect` stored the decoded payload. -/
def decoded {σ : Type} (m : Machine σ) (url : GoString) (id : Int) : Machine σ :=
  { m with api := { m.api with Data := { m.api.Data with ItemURL := url, ItemID := id } } }

/-- The machine after the toggle branch of `handleRSSItemsSelect` called the store. -/
def toggled {σ : Type} (h : InputHandler σ) (m : Machine σ) : Machine σ :=
  { api := m.api.setOption .OptionKeepSelection (lit "true")
    store := (h.db.ToggleUnread m.store m.api.Data.ItemID).1
    calls := m.calls ++ [.ToggleUnread m.api.Data.ItemID]
    log := m.log }

/-! ## The error screen -/

/-- The one-entry error screen: state Error-Show, the single entry `<-- Exit`, and a
message option that is set to a non-empty text. -/
def ErrorScreen (api : RofiApi) : Prop :=
  api.Data.State = .StateErrorShow
  ∧ api.Entries = [{ Text := opExit, Info := [] }]
  ∧ ∃ msg, api.Options .OptionMessage = some msg ∧ msg ≠ []

/-! ## Lemmas: the presentation helpers -/

theorem lit_newline : lit "\n" = [10] := by decide
theorem lit_space : lit " " = [32] := by decide

theorem replaceAux_byte (a b : Nat) (s : GoString) :
    replaceAux [a] [b] 0 s = s.map (fun c => if c = a then b else c) := by
  induction s with
  | nil => rfl
  | cons c cs ih =>
    by_cases hc : c = a
    · subst hc
      simp [replaceAux, List.isPrefixOf, ih]
    · have : ¬ a = c := fun h => hc h.symm
      simp [replaceAux, List.isPrefixOf, ih, hc, this]

theorem truncateEnd_eq_take (s : GoString) : truncateEnd s entryMaxLen = s.take 100 := by
  unfold truncateEnd entryMaxLen
  by_cases h : s.length > 100
  · have : ((s.length : Int) > 100 ∧ (100:Int) ≥ 0) := by omega
    simp [this]
  · have : ¬ ((s.length : Int) > 100 ∧ (100:Int) ≥ 0) := by omega
    simp only [this, if_false]
    exact (List.take_of_length_le (by omega)).symm

theorem formatEntryText_eq (s : GoString) :
    formatEntryText s = (s.take 100).map (fun c => if c = 10 then 32 else c) := by
  unfold formatEntryText replaceNewlines ReplaceAll
  rw [lit_newline, lit_space, replaceAux_byte, truncateEnd_eq_take]

/-! ## Lemmas: `%d`, `strconv.ParseInt` and `strings.SplitN` -/

theorem parseUintLoop_append (xs ys : GoString) (a : Nat) :
    parseUintLoop (xs ++ ys) a =
      match parseUintLoop xs a with
      | .ok n => parseUintLoop ys n
      | .invalid => .invalid
      | .outOfRange => .outOfRange := by
  induction xs generalizing a with
  | nil => simp [parseUintLoop]
  | cons c cs ih =>
    simp only [List.cons_append, parseUintLoop]
    split
    · split
      · rfl
      · split
        · rfl
        · exact ih _
    · rfl

theorem parseUintLoop_natDigits (fuel n : Nat) (hf : n ≤ fuel) (hn : n ≤ maxUint64) :
    parseUintLoop (natDigits fuel n) 0 = .ok n := by
  induction fuel generalizing n with
  | zero =>
    have : n = 0 := by omega
    subst this
    simp [natDigits, parseUintLoop, maxUint64]
  | succ f ih =>
    unfold natDigits
    by_cases h10 : n < 10
    · simp only [h10, if_true, parseUintLoop]
      have h1 : 48 ≤ 48 + n ∧ 48 + n ≤ 57 := by omega
      simp only [h1, and_self, if_true, maxUint64]
      simp
      omega
    · simp only [h10, if_false]
      rw [parseUintLoop_append, ih (n / 10) (by omega) (by omega)]
      simp only [parseUintLoop]
      have h1 : 48 ≤ 48 + n % 10 ∧ 48 + n % 10 ≤ 57 := by omega
      simp only [h1, and_self, if_true]
      unfold maxUint64 at hn ⊢
      have h2 : ¬ (n / 10 ≥ (2 ^ 64 - 1) / 10 + 1) := by omega
      have h3 : ¬ (n / 10 * 10 + (48 + n % 10 - 48) > 2 ^ 64 - 1) := by omega
      simp only [h2, h3, if_false]
      congr 1
      omega

theorem natDigits_digit (fuel n : Nat) : ∀ b ∈ natDigits fuel n, 48 ≤ b ∧ b ≤ 57 := by
  induction fuel generalizing n with
  | zero =>
    intro b hb
    simp [natDigits] at hb
    omega
  | succ f ih =>
    intro b hb
    unfold natDigits at hb
    by_cases h10 : n < 10
    · simp [h10] at hb
      omega
    · simp only [h10, if_false, List.mem_append, List.mem_singleton] at hb
      rcases hb with hb | hb
      · exact ih _ _ hb
      · omega

theorem natDigits_ne_nil (fuel n : Nat) : natDigits fuel n ≠ [] := by
  cases fuel with
  | zero => simp [natDigits]
  | succ f =>
    unfold natDigits
    by_cases h10 : n < 10 <;> simp [h10]

theorem ParseInt_digits (s : GoString) (n : Nat) (hne : s ≠ [])
    (hd : ∀ b ∈ s, 48 ≤ b ∧ b ≤ 57) (hp : parseUintLoop s 0 = .ok n) (hn : n < 2 ^ 63) :
    ParseInt s = ((n : Int), false) := by
  cases s with
  | nil => exact absurd rfl hne
  | cons c cs =>
    have hc := hd c (List.mem_cons_self _ _)
    have h43 : ¬ (c = 43 ∨ c = 45) := by omega
    have h45 : ¬ c = 45 := by omega
    have hs1 : (if c = 43 ∨ c = 45 then cs else c :: cs) = c :: cs := by simp [h43]
    have hpu : ParseUint (c :: cs) = .ok n := by simp [ParseUint, hp]
    have hlt : ¬ (2 ^ 63 ≤ n) := by omega
    unfold ParseInt
    simp only [hs1, hpu]
    simp [signedOf, hlt, h45]
    omega

theorem ParseInt_neg_digits (s : GoString) (n : Nat) (hne : s ≠ [])
    (hp : parseUintLoop s 0 = .ok n) (hn : n ≤ 2 ^ 63) :
    ParseInt (45 :: s) = (-(n : Int), false) := by
  have hpu : ParseUint s = .ok n := by simp [ParseUint, hp, hne]
  have hlt : ¬ (2 ^ 63 < n) := by omega
  have hs1 : (if (45 : Nat) = 43 ∨ (45 : Nat) = 45 then s else 45 :: s) = s := by simp
  unfold ParseInt
  simp only [reduceCtorEq, or_true, if_true, hpu]
  simp [signedOf, hlt]
  omega

theorem ParseInt_formatInt (i : Int) (h : -2 ^ 63 ≤ i ∧ i < 2 ^ 63) :
    ParseInt (formatInt i) = (i, false) := by
  unfold formatInt formatNat
  by_cases hneg : i < 0
  · simp only [hneg, if_true]
    rw [ParseInt_neg_digits _ i.natAbs (natDigits_ne_nil _ _)
      (parseUintLoop_natDigits _ _ (le_refl _) (by unfold maxUint64; omega)) (by omega)]
    congr 1
    omega
  · simp only [hneg, if_false]
    rw [ParseInt_digits _ i.natAbs (natDigits_ne_nil _ _) (natDigits_digit _ _)
      (parseUintLoop_natDigits _ _ (le_refl _) (by unfold maxUint64; omega)) (by omega)]
    congr 1
    omega

theorem formatInt_no_space (i : Int) : 32 ∉ formatInt i := by
  unfold formatInt formatNat
  intro hm
  by_cases hneg : i < 0
  · simp only [hneg, if_true, List.mem_cons] at hm
    rcases hm with hm | hm
    · omega
    · have := natDigits_digit _ _ _ hm
      omega
  · simp only [hneg, if_false] at hm
    have := natDigits_digit _ _ _ hm
    omega

theorem cut_append (sep : Nat) (a b : GoString) (ha : sep ∉ a) :
    cut sep (a ++ sep :: b) = some (a, b) := by
  induction a with
  | nil => simp [cut]
  | cons c cs ih =>
    have hc : ¬ c = sep := fun h => ha (by simp [h])
    have hcs : sep ∉ cs := fun h => ha (by simp [h])
    simp [cut, hc, ih hcs]

theorem cut_of_mem (sep : Nat) (s : GoString) (hm : sep ∈ s) :
    ∃ a b, cut sep s = some (a, b) := by
  induction s with
  | nil => simp at hm
  | cons c cs ih =>
    by_cases hc : c = sep
    · exact ⟨[], cs, by simp [cut, hc]⟩
    · have hcs : sep ∈ cs := by
        rcases List.mem_cons.mp hm with h1 | h1
        · exact absurd h1.symm hc
        · exact h1
      obtain ⟨a, b, hab⟩ := ih hcs
      exact ⟨c :: a, b, by simp [cut, hc, hab]⟩

theorem SplitN2_itemInfo (id : Int) (url : GoString) :
    SplitN2 (itemInfo id url) = [formatInt id, url] := by
  unfold SplitN2 itemInfo
  have : lit " " = [32] := by decide
  rw [this, List.append_assoc, List.singleton_append, cut_append _ _ _ (formatInt_no_space id)]

/-! ## Lemmas: the SQLite cache -/

theorem GetItems_sorted (db : NewsBoatDB) (u : GoString) (items : List RSSItem)
    (hq : NewsBoatDB.GetItems db u = .ok items) :
    items.Pairwise (fun a b => a.PubDate ≥ b.PubDate) := by
  unfold NewsBoatDB.GetItems at hq
  cases hc : db.connErr with
  | some e => simp [hc] at hq
  | none =>
    simp only [hc] at hq
    injection hq with hq
    subst hq
    rw [List.pairwise_map]
    haveI : IsTotal ItemRow (fun a b => a.pubDate ≥ b.pubDate) :=
      ⟨fun a b => le_total b.pubDate a.pubDate⟩
    haveI : IsTrans ItemRow (fun a b => a.pubDate ≥ b.pubDate) :=
      ⟨fun a b c hab hbc => le_trans hbc hab⟩
    exact List.sorted_insertionSort (fun a b : ItemRow => a.pubDate ≥ b.pubDate)
      (db.rss_item.filter (fun r => r.feedurl = u))

theorem GetItems_ok (db : NewsBoatDB) (u : GoString) (hc : db.connErr = none) :
    ∃ items, NewsBoatDB.GetItems db u = .ok items := by
  unfold NewsBoatDB.GetItems
  simp [hc]

theorem SetUnread_spec (db : NewsBoatDB) (id : Int) (v : Bool) (hc : db.connErr = none) :
    (NewsBoatDB.SetUnread db id v).2 = none
    ∧ (NewsBoatDB.SetUnread db id v).1.rss_feed = db.rss_feed
    ∧ (NewsBoatDB.SetUnread db id v).1.rss_item
        = db.rss_item.map (fun r => if r.id = id then { r with unread := v } else r) := by
  unfold NewsBoatDB.SetUnread NewsBoatDB.withTransaction NewsBoatDB.updateUnread
  simp only [hc]
  cases v <;> simp

theorem ToggleUnread_spec (db : NewsBoatDB) (id : Int) (hc : db.connErr = none)
    (hex : ∃ r ∈ db.rss_item, r.id = id)
    (hpk : (db.rss_item.map ItemRow.id).Nodup) :
    (NewsBoatDB.ToggleUnread db id).2 = none
    ∧ (NewsBoatDB.ToggleUnread db id).1.rss_feed = db.rss_feed
    ∧ (NewsBoatDB.ToggleUnread db id).1.connErr = none
    ∧ (NewsBoatDB.ToggleUnread db id).1.rss_item
        = db.rss_item.map
            (fun r => if r.id = id then { r with unread := !r.unread } else r) := by
  unfold NewsBoatDB.ToggleUnread NewsBoatDB.withTransaction
  simp only [hc]
  cases hf : db.rss_item.find? (fun r => r.id = id) with
  | none =>
    obtain ⟨r, hr, hrid⟩ := hex
    have := List.find?_eq_none.mp hf r hr
    simp [hrid] at this
  | some r0 =>
    have hr0 : r0 ∈ db.rss_item := List.mem_of_find?_eq_some hf
    have hid0 : r0.id = id := by
      have := List.find?_some hf
      simpa using this
    refine ⟨rfl, rfl, rfl, ?_⟩
    simp only [NewsBoatDB.updateUnread]
    apply List.map_congr_left
    intro r hr
    by_cases hrid : r.id = id
    · have : r = r0 := List.inj_on_of_nodup_map hpk hr hr0 (by rw [hrid, hid0])
      subst this
      cases hu : r.unread <;> simp [hrid, hu]
    · simp [hrid]

/-! ## Lemmas: the show handlers -/

theorem feedEntries_eq (fs : List RSSFeed) (acc : List Entry) :
    feedEntries fs acc = acc ++ fs.map feedEntry := by
  unfold feedEntries
  induction fs generalizing acc with
  | nil => simp
  | cons f fs ih => simp [List.foldl_cons, ih]

theorem itemEntries_eq (fmt : Int → GoString) (is : List RSSItem) (acc : List Entry) :
    itemEntries fmt is acc = acc ++ is.map (itemEntry fmt) := by
  unfold itemEntries
  induction is generalizing acc with
  | nil => simp
  | cons i is ih => simp [List.foldl_cons, ih]

section frame
variable {σ : Type} (h : InputHandler σ) (m : Machine σ)

theorem HandleRSSFeedsShow_ok (feeds : List RSSFeed)
    (hq : h.db.GetFeeds m.store = .ok feeds) :
    (HandleRSSFeedsShow h m).api.Entries = feeds.map feedEntry
    ∧ (HandleRSSFeedsShow h m).api.Data.State = .StateRSSFeedsSelect := by
  unfold HandleRSSFeedsShow
  simp only [Machine.call, hq, feedEntries_eq]
  simp

theorem HandleRSSFeedsShow_frame :
    (HandleRSSFeedsShow h m).calls = m.calls ++ [.GetFeeds]
    ∧ (HandleRSSFeedsShow h m).store = m.store
    ∧ (HandleRSSFeedsShow h m).api.Data.FeedURL = m.api.Data.FeedURL
    ∧ (HandleRSSFeedsShow h m).api.Data.ItemURL = m.api.Data.ItemURL
    ∧ (HandleRSSFeedsShow h m).api.Data.ItemID = m.api.Data.ItemID := by
  unfold HandleRSSFeedsShow
  simp only [Machine.call]
  split <;> simp [SetMessageToError, Machine.logLine, RofiApi.setOption]

theorem handleRSSItemsShow_ok (items : List RSSItem)
    (hq : h.db.GetItems m.store m.api.Data.FeedURL = .ok items) :
    (handleRSSItemsShow h m).api.Entries
        = { Text := opBack, Info := [] } :: items.map (itemEntry h.FormatJan02)
    ∧ (handleRSSItemsShow h m).api.Data.State = .StateRSSItemsSelect := by
  unfold handleRSSItemsShow
  simp only [Machine.call, RofiApi.setOption, hq, itemEntries_eq]
  simp

theorem handleRSSItemsShow_frame :
    (handleRSSItemsShow h m).calls = m.calls ++ [.GetItems m.api.Data.FeedURL]
    ∧ (handleRSSItemsShow h m).store = m.store
    ∧ (handleRSSItemsShow h m).api.Data.FeedURL = m.api.Data.FeedURL
    ∧ (handleRSSItemsShow h m).api.Data.ItemURL = m.api.Data.ItemURL
    ∧ (handleRSSItemsShow h m).api.Data.ItemID = m.api.Data.ItemID
    ∧ (handleRSSItemsShow h m).api.Options .OptionKeepSelection
        = m.api.Options .OptionKeepSelection := by
  unfold handleRSSItemsShow
  simp only [Machine.call]
  split <;> simp [SetMessageToError, Machine.logLine, RofiApi.setOption]

end frame

/-! ## Lemmas: the select handlers -/

theorem handleRSSFeedsSelect_selected {σ : Type} (h : InputHandler σ) (m : Machine σ)
    (htr : m.api.rofiState = .StateSelected) :
    handleRSSFeedsSelect h m = handleRSSItemsShow h { m with api := { m.api with
      Data := { m.api.Data with FeedURL := m.api.selectedEntry.Info } } } := by
  have key : ∀ r : RofiState, r = .StateSelected → ∀ (A B C : Machine σ),
      (match r with
        | .StateCustomKeybinding1 => A
        | .StateSelected => B
        | _ => C) = B := by
    intro r hr A B C
    subst hr
    rfl
  exact key _ htr _ _ _

theorem itemEntry_text_ne_opBack (fmt : Int → GoString) (ri : RSSItem) :
    (itemEntry fmt ri).Text ≠ opBack := by
  have hob : opBack = 60 :: [45, 45, 32, 66, 97, 99, 107] := by decide
  have h1 : lit "N " = [78, 32] := by decide
  have h2 : lit "  " = [32, 32] := by decide
  unfold itemEntry
  simp only [formatEntryText_eq, itemText, hob, h1, h2]
  cases ri.Unread <;> simp

theorem handleRSSItemsSelect_eq {σ : Type} (h : InputHandler σ) (m : Machine σ)
    (s0 url : GoString) (hb : m.api.selectedEntry.Text ≠ opBack)
    (hs : SplitN2 m.api.selectedEntry.Info = [s0, url]) :
    handleRSSItemsSelect h m = some (match m.api.rofiState with
      | .StateCustomKeybinding1 =>
        handleRSSItemsShow h (toggled h (decoded m url (ParseInt s0).1))
      | .StateSelected => handleGotoURL h (decoded m url (ParseInt s0).1)
      | _ => handleRSSItemsShow h (decoded m url (ParseInt s0).1)) := by
  obtain ⟨⟨opts, ents, d, r, sel, ok⟩, store, calls, log⟩ := m
  simp only at hb hs
  unfold handleRSSItemsSelect
  simp only [hb, if_false, hs]
  cases r <;> rfl

theorem handleRSSItemsSelect_nospace {σ : Type} (h : InputHandler σ) (m : Machine σ)
    (hb : m.api.selectedEntry.Text ≠ opBack)
    (hs : cut 32 m.api.selectedEntry.Info = none) :
    handleRSSItemsSelect h m = none := by
  unfold handleRSSItemsSelect
  simp [hb, SplitN2, hs]

theorem handleRSSItemsSelect_other {σ : Type} (h : InputHandler σ) (m : Machine σ)
    (s0 url : GoString) (hb : m.api.selectedEntry.Text ≠ opBack)
    (hs : SplitN2 m.api.selectedEntry.Info = [s0, url])
    (h1 : m.api.rofiState ≠ .StateCustomKeybinding1)
    (h2 : m.api.rofiState ≠ .StateSelected) :
    handleRSSItemsSelect h m = some (handleRSSItemsShow h (decoded m url (ParseInt s0).1)) := by
  rw [handleRSSItemsSelect_eq h m s0 url hb hs]
  cases hr : m.api.rofiState with
  | StateCustomKeybinding1 => exact absurd hr h1
  | StateSelected => exact absurd hr h2
  | StateOther c => rfl

theorem handleRSSItemsSelect_selected {σ : Type} (h : InputHandler σ) (m : Machine σ)
    (s0 url : GoString) (hb : m.api.selectedEntry.Text ≠ opBack)
    (hs : SplitN2 m.api.selectedEntry.Info = [s0, url])
    (htr : m.api.rofiState = .StateSelected) :
    handleRSSItemsSelect h m = some (handleGotoURL h (decoded m url (ParseInt s0).1)) := by
  rw [handleRSSItemsSelect_eq h m s0 url hb hs, htr]

theorem handleRSSItemsSelect_toggle {σ : Type} (h : InputHandler σ) (m : Machine σ)
    (s0 url : GoString) (hb : m.api.selectedEntry.Text ≠ opBack)
    (hs : SplitN2 m.api.selectedEntry.Info = [s0, url])
    (htr : m.api.rofiState = .StateCustomKeybinding1) :
    handleRSSItemsSelect h m
      = some (handleRSSItemsShow h (toggled h (decoded m url (ParseInt s0).1))) := by
  rw [handleRSSItemsSelect_eq h m s0 url hb hs, htr]

theorem handleGotoURL_frame {σ : Type} (h : InputHandler σ) (m : Machine σ) :
    (handleGotoURL h m).api.Data.FeedURL = m.api.Data.FeedURL
    ∧ (handleGotoURL h m).api.Data.ItemURL = m.api.Data.ItemURL
    ∧ (handleGotoURL h m).api.Data.ItemID = m.api.Data.ItemID := by
  unfold handleGotoURL
  simp only [Machine.call]
  split <;> simp [SetMessageToError, Machine.logLine, RofiApi.setOption]

theorem handleGotoURL_ok {σ : Type} (h : InputHandler σ) (m : Machine σ)
    (hstart : h.os.Start (if h.browser = [] then lit "xdg-open" else h.browser)
      m.api.Data.ItemURL = none) :
    handleGotoURL h m =
      { m with
        calls := m.calls ++ [.Start (if h.browser = [] then lit "xdg-open" else h.browser)
          m.api.Data.ItemURL] ++ [.SetUnread m.api.Data.ItemID false]
        store := (h.db.SetUnread m.store m.api.Data.ItemID false).1 } := by
  unfold handleGotoURL
  simp only [Machine.call, hstart]

theorem handleRSSItemsSelect_decode {σ : Type} (h : InputHandler σ) (m : Machine σ)
    (s0 url : GoString) (hb : m.api.selectedEntry.Text ≠ opBack)
    (hs : SplitN2 m.api.selectedEntry.Info = [s0, url]) :
    ∃ m1, handleRSSItemsSelect h m = some m1
      ∧ m1.api.Data.ItemID = (ParseInt s0).1
      ∧ m1.api.Data.ItemURL = url
      ∧ m1.api.Data.FeedURL = m.api.Data.FeedURL := by
  refine ⟨_, handleRSSItemsSelect_eq h m s0 url hb hs, ?_⟩
  cases m.api.rofiState with
  | StateCustomKeybinding1 =>
    obtain ⟨-, -, hf, hu, hi, -⟩ := handleRSSItemsShow_frame h
      (toggled h (decoded m url (ParseInt s0).1))
    exact ⟨hi, hu, hf⟩
  | StateSelected =>
    obtain ⟨hf, hu, hi⟩ := handleGotoURL_frame h (decoded m url (ParseInt s0).1)
    exact ⟨hi, hu, hf⟩
  | StateOther c =>
    obtain ⟨-, -, hf, hu, hi, -⟩ := handleRSSItemsShow_frame h (decoded m url (ParseInt s0).1)
    exact ⟨hi, hu, hf⟩

/-! ## Lemmas: the failures that reach the error screen -/

theorem SetMessageToError_screen {σ : Type} (esc : GoString → GoString) (m : Machine σ)
    (e : GoError) : ErrorScreen (SetMessageToError esc m e).api := by
  refine ⟨rfl, rfl, _, rfl, ?_⟩
  have hne : lit "<markup><span font_weight=\"bold\">error:</span><span> " ≠ [] := by decide
  intro hnil
  rw [List.append_assoc] at hnil
  exact hne (List.append_eq_nil.mp hnil).1

theorem HandleRSSFeedsShow_error {σ : Type} (h : InputHandler σ) (m : Machine σ)
    (e : GoError) (hq : h.db.GetFeeds m.store = .error e) :
    ErrorScreen (HandleRSSFeedsShow h m).api := by
  unfold HandleRSSFeedsShow
  simp only [Machine.call, hq]
  exact SetMessageToError_screen _ _ _

theorem handleRSSItemsShow_error {σ : Type} (h : InputHandler σ) (m : Machine σ)
    (e : GoError) (hq : h.db.GetItems m.store m.api.Data.FeedURL = .error e) :
    ErrorScreen (handleRSSItemsShow h m).api := by
  unfold handleRSSItemsShow
  simp only [Machine.call, RofiApi.setOption, hq]
  exact SetMessageToError_screen _ _ _

theorem handleGotoURL_error {σ : Type} (h : InputHandler σ) (m : Machine σ) (e : GoError)
    (hstart : h.os.Start (if h.browser = [] then lit "xdg-open" else h.browser)
      m.api.Data.ItemURL = some e) :
    ErrorScreen (handleGotoURL h m).api := by
  unfold handleGotoURL
  simp only [Machine.call, hstart]
  exact SetMessageToError_screen _ _ _

theorem handleReloadAll_error {σ : Type} (h : InputHandler σ) (m : Machine σ)
    (name : GoString) (e : GoError)
    (hc : h.os.CreateTemp = .ok name) (hw : h.os.WriteString = none)
    (hcl : h.os.CloseFile = none) (hr : (h.os.RunReload name m.store).2 = some e) :
    ErrorScreen (handleReloadAll h m).api := by
  unfold handleReloadAll
  simp only [Machine.call, hc, hw, hcl, hr]
  exact SetMessageToError_screen _ _ _

set_option maxRecDepth 8000 in
/-- Scenario E: no opener configured and `xdg-open` cannot be started; the screen is the
error screen and the message names the override variable. -/
theorem handleGotoURL_no_opener :
    ErrorScreen (handleGotoURL { demoHandler with os := demoOSNoOpener }
      (decoded (demoSelect .StateSelected item42Row) (lit "https://example/item") 42)).api
    ∧ (handleGotoURL { demoHandler with os := demoOSNoOpener }
      (decoded (demoSelect .StateSelected item42Row) (lit "https://example/item") 42)).api.Options
        .OptionMessage
      = some (lit ("<markup><span font_weight=\"bold\">error:</span><span> error opening URL: "
          ++ "xdg-utils is not installed, to use without set env variable $ROBOAT_BROWSER"
          ++ "</span></markup>")) :=
  ⟨handleGotoURL_error _ _ (lit "exec: not found") rfl, rfl⟩

/-! ## The presentation formatter -/

/-- Claim C2: for every string `s`, `formatEntryText s` is the first 100 bytes of `s` (all
of `s` when it is shorter) with every newline byte replaced by a space and every other
byte kept in order; its length is `min (len s) 100`, so at most 100, and no newline
byte is left in it. -/
theorem formatEntryText_spec (s : GoString) :
    formatEntryText s = (s.take 100).map (fun c => if c = 10 then 32 else c)
    ∧ (formatEntryText s).length = min s.length 100
    ∧ (formatEntryText s).length ≤ 100
    ∧ 10 ∉ formatEntryText s := by
  rw [formatEntryText_eq]
  refine ⟨rfl, ?_, ?_, ?_⟩
  · simp [List.length_take, Nat.min_comm]
  · simp [List.length_take]
  · intro hmem
    rcases List.mem_map.mp hmem with ⟨c, -, hc⟩
    by_cases h10 : c = 10
    · simp [h10] at hc
    · simp [h10] at hc

/-! ## Feed rows -/

/-- Claim C9, as the code has it: the text of a feed row (before the 100-byte cut) is one
marker byte (`N` exactly when `u >= 1` and `t >= 1`, otherwise a blank), then the counter
`(u/t)` behind `12 - len "(u/t)"` blanks, then a blank and the title. The counter field
is as wide as the larger of 12 and the length of `(u/t)`: exactly 12 whenever the counter
has at most 12 bytes, and a longer counter is written whole. A feed with 3 items, 2
unread, shows `N`, then `(2/3)` behind seven blanks. -/
theorem feedText_layout (rf : RSSFeed) :
    feedText rf
      = (if rf.UnreadItems ≥ 1 ∧ rf.TotalItems ≥ 1 then lit "N" else lit " ")
        ++ (List.replicate (12 - (counterText rf.UnreadItems rf.TotalItems).length) 32
            ++ counterText rf.UnreadItems rf.TotalItems)
        ++ lit " " ++ rf.Title
    ∧ (List.replicate (12 - (counterText rf.UnreadItems rf.TotalItems).length) 32
          ++ counterText rf.UnreadItems rf.TotalItems).length
        = max 12 (counterText rf.UnreadItems rf.TotalItems).length
    ∧ counterText rf.UnreadItems rf.TotalItems
        = lit "(" ++ formatInt rf.UnreadItems ++ lit "/" ++ formatInt rf.TotalItems ++ lit ")"
    ∧ (feedEntry rf).Text = formatEntryText (feedText rf)
    ∧ (∀ title url : GoString,
        feedText { Title := title, RssURL := url, UnreadItems := 2, TotalItems := 3 }
          = lit "N" ++ lit "       (2/3)" ++ lit " " ++ title) := by
  refine ⟨?_, ?_, rfl, rfl, ?_⟩
  · unfold feedText pad12
    have hm : (rf.TotalItems > 0 ∧ rf.UnreadItems > 0)
        ↔ (rf.UnreadItems ≥ 1 ∧ rf.TotalItems ≥ 1) := by omega
    simp only [hm, List.append_assoc]
  · rw [List.length_append, List.length_replicate]
    omega
  · intro title url
    have : feedText { Title := title, RssURL := url, UnreadItems := 2, TotalItems := 3 }
        = (lit "N" ++ (pad12 (counterText 2 3) ++ lit " ")) ++ title := rfl
    rw [this]
    have h2 : pad12 (counterText 2 3) = lit "       (2/3)" := by decide
    rw [h2]
    simp only [List.append_assoc]

/-- The counter field of a feed row has no fixed width: no `w` is the width of the field
between the marker and the blank before the title for every feed. The feed with 2 of 3
items unread has a field of 12 bytes, the feed with 12345 of 12345 one of 13. -/
theorem counter_width_counterexample :
    (¬ ∃ w : Nat, ∀ rf : RSSFeed, ∃ field : GoString, field.length = w
        ∧ feedText rf
          = (if rf.UnreadItems ≥ 1 ∧ rf.TotalItems ≥ 1 then lit "N" else lit " ")
            ++ field ++ lit " " ++ rf.Title)
    ∧ feedText { Title := lit "Feed A", RssURL := lit "https://a/rss",
                 UnreadItems := 2, TotalItems := 3 }
        = lit "N" ++ lit "       (2/3)" ++ lit " " ++ lit "Feed A"
    ∧ feedText { Title := lit "Feed A", RssURL := lit "https://a/rss",
                 UnreadItems := 12345, TotalItems := 12345 }
        = lit "N" ++ lit "(12345/12345)" ++ lit " " ++ lit "Feed A"
    ∧ (lit "       (2/3)").length = 12
    ∧ (lit "(12345/12345)").length = 13 := by
  refine ⟨?_, by decide, by decide, by decide, by decide⟩
  rintro ⟨w, hw⟩
  obtain ⟨f1, hl1, he1⟩ := hw { Title := [], RssURL := [], UnreadItems := 2, TotalItems := 3 }
  obtain ⟨f2, hl2, he2⟩ :=
    hw { Title := [], RssURL := [], UnreadItems := 12345, TotalItems := 12345 }
  have h1 := congrArg List.length he1
  have h2 := congrArg List.length he2
  have e1 : (feedText { Title := [], RssURL := [], UnreadItems := 2, TotalItems := 3 }).length
      = 14 := by decide
  have e2 :
      (feedText { Title := [], RssURL := [], UnreadItems := 12345, TotalItems := 12345 }).length
        = 15 := by decide
  rw [e1] at h1
  rw [e2] at h2
  have hN : (lit "N").length = 1 := by decide
  have hS : (lit " ").length = 1 := by decide
  simp only [ge_iff_le, Int.reduceLE, and_self, if_true, List.length_append, hN, hS,
    List.length_nil] at h1 h2
  omega

/-! ## The feed list -/

/-- Claim C10: when the store returns the feeds `f1..fn` (the empty list included),
`HandleRSSFeedsShow` asks the store for the feeds once and produces a screen of exactly
`n` entries, in the same order, the i-th being the row of `fi` with the source URL of `fi`
as its payload, and the state becomes Feeds-Select; with no feed the screen has no entry.
`handleApiInput` takes this path whenever no entry is selected. -/
theorem HandleRSSFeedsShow_renders_feeds {σ : Type} (h : InputHandler σ) (m : Machine σ)
    (feeds : List RSSFeed) (hq : h.db.GetFeeds m.store = .ok feeds) :
    (HandleRSSFeedsShow h m).api.Entries.length = feeds.length
    ∧ (HandleRSSFeedsShow h m).api.Entries.map Entry.Info = feeds.map RSSFeed.RssURL
    ∧ (∀ i : Nat, (HandleRSSFeedsShow h m).api.Entries[i]? = (feeds[i]?).map feedEntry)
    ∧ (HandleRSSFeedsShow h m).api.Data.State = .StateRSSFeedsSelect
    ∧ (HandleRSSFeedsShow h m).calls = m.calls ++ [.GetFeeds]
    ∧ (feeds = [] → (HandleRSSFeedsShow h m).api.Entries = [])
    ∧ (m.api.selectedOk = false → handleApiInput h m = some (HandleRSSFeedsShow h m)) := by
  obtain ⟨he, hs⟩ := HandleRSSFeedsShow_ok h m feeds hq
  refine ⟨?_, ?_, ?_, hs, (HandleRSSFeedsShow_frame h m).1, ?_, ?_⟩
  · rw [he, List.length_map]
  · rw [he, List.map_map]
    rfl
  · intro i
    rw [he, List.getElem?_map]
  · intro hnil
    rw [he, hnil]
    rfl
  · intro hno
    simp [handleApiInput, hno]

/-- Scenario A, the empty cache: the feed query of the SQLite store returns the empty
list, and the first invocation (no entry selected) renders a screen without entries in
state Feeds-Select. -/
theorem HandleRSSFeedsShow_renders_feeds_witness :
    newsBoatDB.GetFeeds emptyStore = .ok []
    ∧ ∃ m1, handleApiInput demoHandler (demoMachine emptyStore
          (demoApi [] { State := .StateNull, FeedURL := [], ItemURL := [], ItemID := 0 }
            (.StateOther 0) { Text := [], Info := [] } false)) = some m1
        ∧ m1.api.Entries = []
        ∧ m1.api.Entries.length = 0
        ∧ m1.calls = [.GetFeeds]
        ∧ m1.api.Data.State = .StateRSSFeedsSelect :=
  have t := HandleRSSFeedsShow_renders_feeds demoHandler (demoMachine emptyStore
    (demoApi [] { State := .StateNull, FeedURL := [], ItemURL := [], ItemID := 0 }
      (.StateOther 0) { Text := [], Info := [] } false)) [] rfl
  ⟨rfl, _, t.2.2.2.2.2.2 rfl, t.2.2.2.2.2.1 rfl, t.1, t.2.2.2.2.1, t.2.2.2.1⟩

/-! ## Feeds-Select -/

/-- Claim C7: in Feeds-Select with a normal selection, for every selected feed row with
payload `u` and every store whose item query for `u` succeeds with `i1..in`, the carried
feed URL becomes `u`, the one store call made is the item query for `u`, the next screen
has `n + 1` entries, the `<-- Back` row first and then one row per item in the order the
store returned them, and the state becomes Items-Select. The SQLite store returns the
items newest first. -/
theorem handleRSSFeedsSelect_shows_items {σ : Type} (h : InputHandler σ) (m : Machine σ)
    (u : GoString) (items : List RSSItem)
    (hst : m.api.Data.State = .StateRSSFeedsSelect)
    (htr : m.api.rofiState = .StateSelected)
    (hu : m.api.selectedEntry.Info = u)
    (hq : h.db.GetItems m.store u = .ok items) :
    ∃ m1, HandleInput h m = some m1
      ∧ m1.api.Data.FeedURL = u
      ∧ m1.calls = m.calls ++ [.GetItems u]
      ∧ m1.api.Entries = { Text := opBack, Info := [] } :: items.map (itemEntry h.FormatJan02)
      ∧ m1.api.Entries.length = items.length + 1
      ∧ m1.api.Entries.head? = some { Text := opBack, Info := [] }
      ∧ m1.api.Data.State = .StateRSSItemsSelect
      ∧ (∀ (db : NewsBoatDB) (v : GoString) (l : List RSSItem),
          newsBoatDB.GetItems db v = .ok l → l.Pairwise (fun a b => a.PubDate ≥ b.PubDate)) := by
  refine ⟨handleRSSFeedsSelect h m, ?_, ?_⟩
  · simp [HandleInput, hst]
  · rw [handleRSSFeedsSelect_selected h m htr, hu]
    have hq1 : h.db.GetItems
        ({ m with api := { m.api with Data := { m.api.Data with FeedURL := u } } }
          : Machine σ).store
        ({ m with api := { m.api with Data := { m.api.Data with FeedURL := u } } }
          : Machine σ).api.Data.FeedURL = .ok items := hq
    obtain ⟨he, hs⟩ := handleRSSItemsShow_ok h _ items hq1
    obtain ⟨hc, -, hf, -⟩ := handleRSSItemsShow_frame h
      ({ m with api := { m.api with Data := { m.api.Data with FeedURL := u } } } : Machine σ)
    refine ⟨hf, hc, he, ?_, ?_, hs, ?_⟩
    · rw [he]; simp
    · rw [he]; rfl
    · intro db v l hl
      exact GetItems_sorted db v l hl

/-- Scenario C: the row of feed `https://a/rss` selected in Feeds-Select over `demoStore`. -/
theorem handleRSSFeedsSelect_shows_items_witness :
    ∃ m1, HandleInput demoHandler (demoFeedsSelect .StateSelected) = some m1
      ∧ m1.api.Data.FeedURL = lit "https://a/rss"
      ∧ m1.calls = [] ++ [.GetItems (lit "https://a/rss")]
      ∧ m1.api.Entries = { Text := opBack, Info := [] }
          :: demoItems.map (itemEntry formatJan02UTC)
      ∧ m1.api.Entries.length = demoItems.length + 1
      ∧ m1.api.Entries.head? = some { Text := opBack, Info := [] }
      ∧ m1.api.Data.State = .StateRSSItemsSelect
      ∧ (∀ (db : NewsBoatDB) (v : GoString) (l : List RSSItem),
          newsBoatDB.GetItems db v = .ok l → l.Pairwise (fun a b => a.PubDate ≥ b.PubDate)) :=
  handleRSSFeedsSelect_shows_items demoHandler (demoFeedsSelect .StateSelected)
    (lit "https://a/rss") demoItems rfl rfl rfl rfl

/-! ## The payload of an item row -/

/-- Claim C5: the payload of an item row round-trips. For every item with an `int64` id
and any URL bytes (spaces or none at all included), `strings.SplitN` cuts the rendered
payload `"<id> <url>"` back into the decimal id and the URL, `strconv.ParseInt` reads
the id back without error, and when the rendered row is the selected entry in
Items-Select the handler completes with exactly this id and URL in the carried `ItemID`
and `ItemURL`. -/
theorem item_payload_roundtrip {σ : Type} (h : InputHandler σ) (m : Machine σ)
    (ri : RSSItem) (hid : -2 ^ 63 ≤ ri.ID ∧ ri.ID < 2 ^ 63)
    (hst : m.api.Data.State = .StateRSSItemsSelect)
    (hsel : m.api.selectedEntry = itemEntry h.FormatJan02 ri) :
    SplitN2 (itemEntry h.FormatJan02 ri).Info = [formatInt ri.ID, ri.URL]
    ∧ ParseInt (formatInt ri.ID) = (ri.ID, false)
    ∧ ∃ m1, HandleInput h m = some m1
        ∧ m1.api.Data.ItemID = ri.ID
        ∧ m1.api.Data.ItemURL = ri.URL := by
  have hsp : SplitN2 (itemEntry h.FormatJan02 ri).Info = [formatInt ri.ID, ri.URL] :=
    SplitN2_itemInfo ri.ID ri.URL
  have hp := ParseInt_formatInt ri.ID hid
  refine ⟨hsp, hp, ?_⟩
  have hb : m.api.selectedEntry.Text ≠ opBack := by
    rw [hsel]
    exact itemEntry_text_ne_opBack _ _
  have hs : SplitN2 m.api.selectedEntry.Info = [formatInt ri.ID, ri.URL] := by
    rw [hsel]
    exact hsp
  obtain ⟨m1, hm1, hi, hu, -⟩ := handleRSSItemsSelect_decode h m _ _ hb hs
  refine ⟨m1, ?_, ?_, hu⟩
  · simp [HandleInput, hst, hm1]
  · rw [hi, hp]

/-- Item 43 of `demoStore`, whose URL holds a space. -/
theorem item_payload_roundtrip_witness :
    SplitN2 (itemEntry formatJan02UTC
        { ID := 43, Title := lit "Newest", FeedURL := [], URL := lit "https://example/a b",
          PubDate := 1700172800, Unread := true }).Info
      = [formatInt 43, lit "https://example/a b"]
    ∧ ParseInt (formatInt 43) = (43, false)
    ∧ ∃ m1, HandleInput demoHandler (demoSelect (.StateOther 0)
          (itemEntry formatJan02UTC
            { ID := 43, Title := lit "Newest", FeedURL := [], URL := lit "https://example/a b",
              PubDate := 1700172800, Unread := true })) = some m1
        ∧ m1.api.Data.ItemID = 43
        ∧ m1.api.Data.ItemURL = lit "https://example/a b" :=
  item_payload_roundtrip demoHandler _
    { ID := 43, Title := lit "Newest", FeedURL := [], URL := lit "https://example/a b",
      PubDate := 1700172800, Unread := true }
    (by decide) rfl rfl

/-! ## Items-Select: the back row -/

/-- Claim C6: in Items-Select, whatever the trigger, the carried feed URL, item URL and
item id and the payload of the selected entry, when the text of the selected entry is
`<-- Back` the handler completes, the one call made is the feed query of the store (no
toggle, no opener, the store is left as it is), the carried item URL and item id (and
feed URL) are unchanged, and when the feed query succeeds the screen is the feed list
and the state Feeds-Select. -/
theorem handleRSSItemsSelect_back {σ : Type} (h : InputHandler σ) (m : Machine σ)
    (hst : m.api.Data.State = .StateRSSItemsSelect)
    (hb : m.api.selectedEntry.Text = opBack) :
    ∃ m1, HandleInput h m = some m1
      ∧ m1.calls = m.calls ++ [.GetFeeds]
      ∧ m1.store = m.store
      ∧ m1.api.Data.ItemURL = m.api.Data.ItemURL
      ∧ m1.api.Data.ItemID = m.api.Data.ItemID
      ∧ m1.api.Data.FeedURL = m.api.Data.FeedURL
      ∧ ∀ feeds, h.db.GetFeeds m.store = .ok feeds →
          m1.api.Entries = feeds.map feedEntry
          ∧ m1.api.Data.State = .StateRSSFeedsSelect := by
  refine ⟨HandleRSSFeedsShow h m, ?_, ?_⟩
  · simp [HandleInput, hst, handleRSSItemsSelect, hb]
  · obtain ⟨hc, hs, hf, hu, hi⟩ := HandleRSSFeedsShow_frame h m
    exact ⟨hc, hs, hu, hi, hf, fun feeds hq => HandleRSSFeedsShow_ok h m feeds hq⟩

/-- The back row selected with the hotkey trigger while item 42 is carried: the feed list
of `demoStore` is rendered, nothing but the feed query is called. -/
theorem handleRSSItemsSelect_back_witness :
    ∃ m1, HandleInput demoHandler (demoMachine demoStore (demoApi demoItemScreen
        { State := .StateRSSItemsSelect, FeedURL := lit "https://a/rss",
          ItemURL := lit "https://example/item", ItemID := 42 }
        .StateCustomKeybinding1 backRow true)) = some m1
      ∧ m1.calls = [.GetFeeds]
      ∧ m1.store = demoStore
      ∧ m1.api.Data.ItemURL = lit "https://example/item"
      ∧ m1.api.Data.ItemID = 42
      ∧ m1.api.Data.FeedURL = lit "https://a/rss"
      ∧ m1.api.Entries = [feedARow]
      ∧ m1.api.Data.State = .StateRSSFeedsSelect := by
  obtain ⟨m1, h1, h2, h3, h4, h5, h6, h7⟩ :=
    handleRSSItemsSelect_back demoHandler (demoMachine demoStore (demoApi demoItemScreen
        { State := .StateRSSItemsSelect, FeedURL := lit "https://a/rss",
          ItemURL := lit "https://example/item", ItemID := 42 }
        .StateCustomKeybinding1 backRow true)) rfl rfl
  have h8 := h7 [{ Title := lit "Feed A", RssURL := lit "https://a/rss",
                   UnreadItems := 2, TotalItems := 3 }] rfl
  have h9 : [({ Title := lit "Feed A", RssURL := lit "https://a/rss",
                UnreadItems := 2, TotalItems := 3 } : RSSFeed)].map feedEntry = [feedARow] := by
    decide
  exact ⟨m1, h1, h2, h3, h4, h5, h6, h8.1.trans h9, h8.2⟩

/-! ## Items-Select: any other input -/

/-- Claim C4, as the code has it: in Items-Select, for every trigger that is neither the
toggle-read hotkey nor a normal selection and every selected entry whose text is not
`<-- Back` and whose payload holds a space, `handleRSSItemsSelect` completes (no index
out of range), makes the item query for the carried feed URL as its one call, and when
that query succeeds the screen is the item list of that feed (`<-- Back` row first) and
the state stays Items-Select. -/
theorem handleRSSItemsSelect_fallback {σ : Type} (h : InputHandler σ) (m : Machine σ)
    (items : List RSSItem)
    (hst : m.api.Data.State = .StateRSSItemsSelect)
    (h1 : m.api.rofiState ≠ .StateCustomKeybinding1)
    (h2 : m.api.rofiState ≠ .StateSelected)
    (hb : m.api.selectedEntry.Text ≠ opBack)
    (hsp : 32 ∈ m.api.selectedEntry.Info)
    (hq : h.db.GetItems m.store m.api.Data.FeedURL = .ok items) :
    ∃ m1, HandleInput h m = some m1
      ∧ m1.calls = m.calls ++ [.GetItems m.api.Data.FeedURL]
      ∧ m1.store = m.store
      ∧ m1.api.Data.FeedURL = m.api.Data.FeedURL
      ∧ m1.api.Entries = { Text := opBack, Info := [] } :: items.map (itemEntry h.FormatJan02)
      ∧ m1.api.Data.State = .StateRSSItemsSelect := by
  obtain ⟨a, b, hab⟩ := cut_of_mem 32 _ hsp
  have hs : SplitN2 m.api.selectedEntry.Info = [a, b] := by simp [SplitN2, hab]
  refine ⟨handleRSSItemsShow h (decoded m b (ParseInt a).1), ?_, ?_⟩
  · simp only [HandleInput, hst]
    exact handleRSSItemsSelect_other h m a b hb hs h1 h2
  · have hq1 : h.db.GetItems (decoded m b (ParseInt a).1).store
        (decoded m b (ParseInt a).1).api.Data.FeedURL = .ok items := hq
    obtain ⟨he, hs1⟩ := handleRSSItemsShow_ok h _ items hq1
    obtain ⟨hc, hstore, hf, -⟩ := handleRSSItemsShow_frame h (decoded m b (ParseInt a).1)
    exact ⟨hc, hstore, hf, he, hs1⟩

/-- Two selected entries for which a fallback trigger in Items-Select does not re-render
the item list, although the item query of the carried feed succeeds. The `<-- Back` row
(empty payload): the feed list is rendered and the state becomes Feeds-Select. An entry
with another text and an empty payload: `infoSplit[1]` is out of range, the handler does
not complete. -/
theorem fallback_rerender_counterexample :
    (newsBoatDB.GetItems demoStore (lit "https://a/rss") = .ok demoItems
      ∧ ∃ m1, HandleInput demoHandler (demoSelect (.StateOther 0) backRow) = some m1
          ∧ m1.api.Data.State = .StateRSSFeedsSelect
          ∧ m1.api.Data.State ≠ .StateRSSItemsSelect
          ∧ m1.api.Entries = [feedARow]
          ∧ m1.api.Entries ≠ backRow :: demoItems.map (itemEntry formatJan02UTC)
          ∧ m1.calls = [.GetFeeds])
    ∧ HandleInput demoHandler (demoSelect (.StateOther 0) { Text := lit "x", Info := [] })
        = none := by
  refine ⟨⟨rfl, _, rfl, by decide, by decide, by decide, by decide, by decide⟩, rfl⟩

/-- Cancel on the row of item 42 of `demoStore`: the item list of `https://a/rss` is rendered again. -/
theorem handleRSSItemsSelect_fallback_witness :
    ∃ m1, HandleInput demoHandler (demoSelect (.StateOther 0) item42Row) = some m1
      ∧ m1.calls = [] ++ [.GetItems (lit "https://a/rss")]
      ∧ m1.store = demoStore
      ∧ m1.api.Data.FeedURL = lit "https://a/rss"
      ∧ m1.api.Entries = { Text := opBack, Info := [] }
          :: demoItems.map (itemEntry formatJan02UTC)
      ∧ m1.api.Data.State = .StateRSSItemsSelect :=
  handleRSSItemsSelect_fallback demoHandler (demoSelect (.StateOther 0) item42Row) demoItems
    rfl (by decide) (by decide) (by decide) (by decide) rfl

/-! ## Items-Select: opening an item -/

/-- Claim C3, as the code has it: in Items-Select, a normal selection of an item row
(`int64` id, opener launch succeeding) completes with the id and URL of the row in the
carried `ItemID` and `ItemURL`; the opener (`$ROBOAT_BROWSER`, or `xdg-open` when unset)
is started with that URL and then `SetUnread(id, false)` is called, and these are the
only calls; the entries and options of the api object are left as they were (no item
list is rendered), the carried feed URL too, and the state stays Items-Select. On a
working SQLite store that `SetUnread` clears the unread flag of the rows with this id
and changes nothing else. -/
theorem handleRSSItemsSelect_open {σ : Type} (h : InputHandler σ) (m : Machine σ)
    (ri : RSSItem) (hid : -2 ^ 63 ≤ ri.ID ∧ ri.ID < 2 ^ 63)
    (hst : m.api.Data.State = .StateRSSItemsSelect)
    (htr : m.api.rofiState = .StateSelected)
    (hsel : m.api.selectedEntry = itemEntry h.FormatJan02 ri)
    (hstart : h.os.Start (if h.browser = [] then lit "xdg-open" else h.browser) ri.URL
      = none) :
    ∃ m1, HandleInput h m = some m1
      ∧ m1.api.Data.ItemID = ri.ID
      ∧ m1.api.Data.ItemURL = ri.URL
      ∧ m1.calls = m.calls
          ++ [.Start (if h.browser = [] then lit "xdg-open" else h.browser) ri.URL,
              .SetUnread ri.ID false]
      ∧ m1.store = (h.db.SetUnread m.store ri.ID false).1
      ∧ m1.api.Entries = m.api.Entries
      ∧ m1.api.Options = m.api.Options
      ∧ m1.api.Data.FeedURL = m.api.Data.FeedURL
      ∧ m1.api.Data.State = .StateRSSItemsSelect
      ∧ (∀ db : NewsBoatDB, db.connErr = none →
          (newsBoatDB.SetUnread db ri.ID false).2 = none
          ∧ (newsBoatDB.SetUnread db ri.ID false).1.rss_feed = db.rss_feed
          ∧ (newsBoatDB.SetUnread db ri.ID false).1.rss_item
              = db.rss_item.map
                  (fun r => if r.id = ri.ID then { r with unread := false } else r)) := by
  have hb : m.api.selectedEntry.Text ≠ opBack := by
    rw [hsel]
    exact itemEntry_text_ne_opBack _ _
  have hs : SplitN2 m.api.selectedEntry.Info = [formatInt ri.ID, ri.URL] := by
    rw [hsel]
    exact SplitN2_itemInfo ri.ID ri.URL
  have hp : (ParseInt (formatInt ri.ID)).1 = ri.ID := by rw [ParseInt_formatInt ri.ID hid]
  have hsel1 := handleRSSItemsSelect_selected h m _ _ hb hs htr
  rw [hp] at hsel1
  have hgo := handleGotoURL_ok h (decoded m ri.URL ri.ID) hstart
  refine ⟨handleGotoURL h (decoded m ri.URL ri.ID), ?_, ?_⟩
  · simp only [HandleInput, hst]
    exact hsel1
  · rw [hgo]
    refine ⟨rfl, rfl, ?_, rfl, rfl, rfl, rfl, hst, ?_⟩
    · simp [decoded]
    · intro db hc
      exact SetUnread_spec db ri.ID false hc

/-- After a normal selection of the row of item 42 with a successful launch, the entries
of the api object are not the freshly rendered item list: they are what they were before
the handler ran. Shown for an api object that starts without entries and for one that
starts with the previously rendered item screen (on which item 42 is still unread). -/
theorem open_does_not_render_counterexample :
    demoHandler.os.Start (lit "xdg-open") (lit "https://example/item") = none
    ∧ (∃ m1 items, HandleInput demoHandler (demoSelect .StateSelected item42Row) = some m1
      ∧ m1.calls = [.Start (lit "xdg-open") (lit "https://example/item"), .SetUnread 42 false]
      ∧ newsBoatDB.GetItems m1.store m1.api.Data.FeedURL = .ok items
      ∧ m1.api.Entries = []
      ∧ m1.api.Entries ≠ backRow :: items.map (itemEntry formatJan02UTC))
    ∧ (∃ m1 items, HandleInput demoHandler (demoMachine demoStore
          (demoApi demoItemScreen demoItemsData .StateSelected item42Row true)) = some m1
      ∧ newsBoatDB.GetItems m1.store m1.api.Data.FeedURL = .ok items
      ∧ m1.api.Entries = demoItemScreen
      ∧ m1.api.Entries ≠ backRow :: items.map (itemEntry formatJan02UTC)) := by
  refine ⟨rfl, ⟨_, _, rfl, by decide, rfl, by decide, by decide⟩,
    ⟨_, _, rfl, rfl, by decide, by decide⟩⟩

/-- Normal selection of the row of item 42 of `demoStore` with `xdg-open` starting. -/
theorem handleRSSItemsSelect_open_witness :
    ∃ m1, HandleInput demoHandler (demoSelect .StateSelected
        (itemEntry formatJan02UTC
          { ID := 42, Title := lit "Item", FeedURL := [], URL := lit "https://example/item",
            PubDate := 1700086400, Unread := true })) = some m1
      ∧ m1.api.Data.ItemID = 42
      ∧ m1.api.Data.ItemURL = lit "https://example/item"
      ∧ m1.calls = [] ++ [.Start (if demoHandler.browser = [] then lit "xdg-open"
            else demoHandler.browser) (lit "https://example/item"), .SetUnread 42 false]
      ∧ m1.store = (newsBoatDB.SetUnread demoStore 42 false).1
      ∧ m1.api.Entries = []
      ∧ m1.api.Options = (fun _ => none)
      ∧ m1.api.Data.FeedURL = lit "https://a/rss"
      ∧ m1.api.Data.State = .StateRSSItemsSelect
      ∧ (∀ db : NewsBoatDB, db.connErr = none →
          (newsBoatDB.SetUnread db 42 false).2 = none
          ∧ (newsBoatDB.SetUnread db 42 false).1.rss_feed = db.rss_feed
          ∧ (newsBoatDB.SetUnread db 42 false).1.rss_item
              = db.rss_item.map
                  (fun r => if r.id = 42 then { r with unread := false } else r)) :=
  handleRSSItemsSelect_open demoHandler _
    { ID := 42, Title := lit "Item", FeedURL := [], URL := lit "https://example/item",
      PubDate := 1700086400, Unread := true }
    (by decide) rfl rfl rfl rfl

/-! ## Items-Select: the toggle-read hotkey -/

/-- Claim C8: in Items-Select over a working SQLite store, firing the toggle-read hotkey
on an item row with payload `"<id> <url>"` whose item is in the store flips the unread
flag of exactly the row with that id (every other row and the feed table unchanged),
sets the keep-selection option to `"true"`, and re-renders the item list of the same
carried feed URL from the store after the flip (`<-- Back` row first), with state
Items-Select; the calls made are the toggle of that id and then the item query. -/
theorem handleRSSItemsSelect_toggle_read (h : InputHandler NewsBoatDB)
    (m : Machine NewsBoatDB) (id : Int) (url : GoString)
    (hdb : h.db = newsBoatDB)
    (hst : m.api.Data.State = .StateRSSItemsSelect)
    (htr : m.api.rofiState = .StateCustomKeybinding1)
    (hb : m.api.selectedEntry.Text ≠ opBack)
    (hinfo : m.api.selectedEntry.Info = itemInfo id url)
    (hid : -2 ^ 63 ≤ id ∧ id < 2 ^ 63)
    (hc : m.store.connErr = none)
    (hex : ∃ r ∈ m.store.rss_item, r.id = id)
    (hpk : (m.store.rss_item.map ItemRow.id).Nodup) :
    ∃ m1, HandleInput h m = some m1
      ∧ m1.store.rss_item = m.store.rss_item.map
          (fun r => if r.id = id then { r with unread := !r.unread } else r)
      ∧ m1.store.rss_feed = m.store.rss_feed
      ∧ m1.api.Options .OptionKeepSelection = some (lit "true")
      ∧ m1.calls = m.calls ++ [.ToggleUnread id, .GetItems m.api.Data.FeedURL]
      ∧ m1.api.Data.FeedURL = m.api.Data.FeedURL
      ∧ (∃ items, newsBoatDB.GetItems m1.store m.api.Data.FeedURL = .ok items
          ∧ m1.api.Entries
              = { Text := opBack, Info := [] } :: items.map (itemEntry h.FormatJan02))
      ∧ m1.api.Data.State = .StateRSSItemsSelect := by
  have hs : SplitN2 m.api.selectedEntry.Info = [formatInt id, url] := by
    rw [hinfo]
    exact SplitN2_itemInfo id url
  have hp : (ParseInt (formatInt id)).1 = id := by rw [ParseInt_formatInt id hid]
  have ht := handleRSSItemsSelect_toggle h m _ _ hb hs htr
  rw [hp] at ht
  obtain ⟨herr, hfeed, hconn, hitems⟩ := ToggleUnread_spec m.store id hc hex hpk
  have hstore : (toggled h (decoded m url id)).store = (NewsBoatDB.ToggleUnread m.store id).1 := by
    simp [toggled, decoded, hdb, newsBoatDB]
  obtain ⟨items, hq⟩ := GetItems_ok (NewsBoatDB.ToggleUnread m.store id).1 m.api.Data.FeedURL hconn
  have hq1 : h.db.GetItems (toggled h (decoded m url id)).store
      (toggled h (decoded m url id)).api.Data.FeedURL = .ok items := by
    rw [hstore, hdb]
    exact hq
  obtain ⟨he, hs1⟩ := handleRSSItemsShow_ok h _ items hq1
  obtain ⟨hcalls, hst1, hf, -, -, hk⟩ := handleRSSItemsShow_frame h (toggled h (decoded m url id))
  refine ⟨handleRSSItemsShow h (toggled h (decoded m url id)), ?_, ?_, ?_, ?_, ?_, hf, ?_, hs1⟩
  · simp only [HandleInput, hst]
    exact ht
  · rw [hst1, hstore, hitems]
  · rw [hst1, hstore, hfeed]
  · rw [hk]
    simp [toggled, RofiApi.setOption]
  · rw [hcalls]
    simp [toggled, decoded, RofiApi.setOption]
  · refine ⟨items, ?_, he⟩
    rw [hst1, hstore]
    exact hq

/-- Scenario D: the toggle-read hotkey on the payload `42 https://example/item` over `demoStore`. -/
theorem handleRSSItemsSelect_toggle_read_witness :
    ∃ m1, HandleInput demoHandler (demoSelect .StateCustomKeybinding1 item42Row) = some m1
      ∧ m1.store.rss_item = demoStore.rss_item.map
          (fun r => if r.id = 42 then { r with unread := !r.unread } else r)
      ∧ m1.store.rss_feed = demoStore.rss_feed
      ∧ m1.api.Options .OptionKeepSelection = some (lit "true")
      ∧ m1.calls = [] ++ [.ToggleUnread 42, .GetItems (lit "https://a/rss")]
      ∧ m1.api.Data.FeedURL = lit "https://a/rss"
      ∧ (∃ items, newsBoatDB.GetItems m1.store (lit "https://a/rss") = .ok items
          ∧ m1.api.Entries
              = { Text := opBack, Info := [] } :: items.map (itemEntry formatJan02UTC))
      ∧ m1.api.Data.State = .StateRSSItemsSelect :=
  handleRSSItemsSelect_toggle_read demoHandler
    (demoSelect .StateCustomKeybinding1 item42Row) 42 (lit "https://example/item")
    rfl rfl rfl (by decide) (by decide) (by decide) rfl
    ⟨{ id := 42, title := lit "Item", url := lit "https://example/item",
       feedurl := lit "https://a/rss", pubDate := 1700086400, unread := true },
      by decide, rfl⟩
    (by decide)

/-! ## Failures of the store and of the actions -/

/-- Claim C1 on three failing calls, run on the code. (1) Toggle-read hotkey on the row of
an item that is no longer in the cache: `ToggleUnread` returns an error, yet the handler
renders the item list, state Items-Select, with the usual message, and logs nothing.
(2) Reload hotkey when the temporary file cannot be created: the error is logged only,
no entry and no message is set and the state stays Feeds-Select. (3) Normal selection
of an item when the opener starts but `SetUnread` fails: entries and message untouched,
state Items-Select, nothing logged. None of the three reaches Error-Show. -/
theorem failure_without_error_screen :
    ((newsBoatDB.ToggleUnread demoStore 99).2
        = some (lit "failed to retrieve unread value: sql: no rows in result set")
      ∧ ∃ m1, HandleInput demoHandler (demoSelect .StateCustomKeybinding1 goneRow) = some m1
        ∧ m1.calls = [.ToggleUnread 99, .GetItems (lit "https://a/rss")]
        ∧ m1.api.Data.State = .StateRSSItemsSelect
        ∧ m1.api.Data.State ≠ .StateErrorShow
        ∧ ¬ ErrorScreen m1.api
        ∧ m1.api.Entries = backRow :: demoItems.map (itemEntry formatJan02UTC)
        ∧ m1.api.Options .OptionMessage
            = some (formatMessage escapeMarkup (lit "Toggle read: Alt+1"))
        ∧ m1.log = [])
    ∧ (demoHandlerNoTemp.os.CreateTemp = .error (lit "no space left on device")
      ∧ ∃ m1, HandleInput demoHandlerNoTemp (demoFeedsSelect .StateCustomKeybinding1) = some m1
        ∧ m1.calls = [.CreateTemp]
        ∧ m1.api.Data.State = .StateRSSFeedsSelect
        ∧ m1.api.Data.State ≠ .StateErrorShow
        ∧ ¬ ErrorScreen m1.api
        ∧ m1.api.Entries = []
        ∧ m1.api.Options .OptionMessage = none
        ∧ m1.log = [lit "Error creating temporary file: no space left on device"])
    ∧ ((newsBoatDB.SetUnread lockedStore 42 false).2
        = some (lit "failed to begin transaction: database is locked")
      ∧ ∃ m1, HandleInput demoHandler (demoMachine lockedStore
            (demoApi [] demoItemsData .StateSelected item42Row true)) = some m1
        ∧ m1.calls = [.Start (lit "xdg-open") (lit "https://example/item"),
            .SetUnread 42 false]
        ∧ m1.api.Data.State = .StateRSSItemsSelect
        ∧ m1.api.Data.State ≠ .StateErrorShow
        ∧ ¬ ErrorScreen m1.api
        ∧ m1.api.Entries = []
        ∧ m1.api.Options .OptionMessage = none
        ∧ m1.log = []) := by
  refine ⟨⟨by decide, _, rfl, by decide, by decide, by decide,
      fun hs => absurd hs.1 (by decide), by decide, by decide, by decide⟩,
    ⟨rfl, _, rfl, by decide, by decide, by decide,
      fun hs => absurd hs.1 (by decide), by decide, by decide, by decide⟩,
    ⟨by decide, _, rfl, by decide, by decide, by decide,
      fun hs => absurd hs.1 (by decide), by decide, by decide, by decide⟩⟩

end Roboat
